import Mathlib

/-!
Shallow embedding of the bytecode regular-expression engine
(lexer → shunting-yard parser → bytecode emitter → virtual machine).
Strings are modelled as lists of byte values (`List Nat`, each < 256);
the compiled program is a flat byte list; the C++ `while` interpreter
loop is modelled with explicit fuel (`none` = fuel exhausted).
-/

namespace CPPRegex

/-- Byte value of each character of a Lean string (ASCII patterns/inputs). -/
def strBytes (s : String) : List Nat := s.data.map Char.toNat

/-- Model of `std::isdigit` on a byte (C locale). -/
def isDigitB (b : Nat) : Bool := 48 ≤ b && b ≤ 57

/-- Model of `std::islower` on a byte (C locale). -/
def isLowerB (b : Nat) : Bool := 97 ≤ b && b ≤ 122

/-- Model of `std::isupper` on a byte (C locale). -/
def isUpperB (b : Nat) : Bool := 65 ≤ b && b ≤ 90

/-- Model of `std::isalnum` on a byte (C locale). -/
def isAlnumB (b : Nat) : Bool := isDigitB b || isLowerB b || isUpperB b

/-- The value of a byte read back through a (signed) `char`, as done by
`CHAR` in the source. -/
def signedByte (b : Nat) : Int := if b < 128 then (b : Int) else (b : Int) - 256

/- enum RegexOperatorType -/
@[simp] def RegexOperatorType_Alternate : Nat := 0
@[simp] def RegexOperatorType_Concatenate : Nat := 1
@[simp] def RegexOperatorType_ZeroOrMore : Nat := 2
@[simp] def RegexOperatorType_OneOrMore : Nat := 3
@[simp] def RegexOperatorType_ZeroOrOne : Nat := 4

/- enum RegexCharacterType -/
@[simp] def RegexCharacterType_Single : Nat := 0
@[simp] def RegexCharacterType_Range : Nat := 1
@[simp] def RegexCharacterType_Any : Nat := 2

/-- enum RegexTokenType (the `Invalid` member is never produced by the lexer). -/
inductive RTokType where
  | Character
  | CharacterRange
  | Operator
  | GroupBegin
  | GroupEnd
  deriving DecidableEq, Repr

/-- struct RegexToken: `data`/`data_len` span modelled as the list of span
bytes; `encoding` is the operator subtype, character subtype or group id. -/
structure RToken where
  data : List Nat
  type : RTokType
  encoding : Nat
  deriving DecidableEq, Repr

instance {ε α : Type} [DecidableEq ε] [DecidableEq α] : DecidableEq (Except ε α) := fun a b =>
  match a, b with
  | .ok x, .ok y => decidable_of_iff (x = y) (by simp)
  | .ok _, .error _ => isFalse (by simp)
  | .error _, .ok _ => isFalse (by simp)
  | .error x, .error y => decidable_of_iff (x = y) (by simp)

/-- The `LexError` taxonomy: the two distinct failure messages of `lex_regex`. -/
inductive LexError where
  | UnclosedCharacterRange
  | UnsupportedCharacter
  deriving DecidableEq, Repr

/-- Loop body of `lex_regex`: remaining input, `need_concat` flag, reversed
token accumulator. The first argument is structural fuel: every iteration
consumes at least one input byte, so starting it at the input length (as
`lex_regex` does) the `0, _ :: _` case is unreachable. -/
def lexLoop : Nat → List Nat → Bool → List RToken → Except LexError (List RToken)
  | _, [], _, acc => .ok acc.reverse
  | 0, _ :: _, _, _ => .error .UnsupportedCharacter
  | fuel + 1, c :: rest, needConcat, acc =>
    if isAlnumB c || c = 95 then
      let acc1 := if needConcat then
        ⟨[], .Operator, RegexOperatorType_Concatenate⟩ :: acc else acc
      lexLoop fuel rest true (⟨[c], .Character, RegexCharacterType_Single⟩ :: acc1)
    else if c = 124 then  -- '|'
      lexLoop fuel rest false (⟨[c], .Operator, RegexOperatorType_Alternate⟩ :: acc)
    else if c = 42 then   -- '*'
      lexLoop fuel rest needConcat (⟨[c], .Operator, RegexOperatorType_ZeroOrMore⟩ :: acc)
    else if c = 43 then   -- '+'
      lexLoop fuel rest needConcat (⟨[c], .Operator, RegexOperatorType_OneOrMore⟩ :: acc)
    else if c = 63 then   -- '?'
      lexLoop fuel rest needConcat (⟨[c], .Operator, RegexOperatorType_ZeroOrOne⟩ :: acc)
    else if c = 46 then   -- '.'
      let acc1 := if needConcat then
        ⟨[], .Operator, RegexOperatorType_Concatenate⟩ :: acc else acc
      lexLoop fuel rest true (⟨[c], .Character, RegexCharacterType_Any⟩ :: acc1)
    else if c = 40 then   -- '('
      let acc1 := if needConcat then
        ⟨[], .Operator, RegexOperatorType_Concatenate⟩ :: acc else acc
      lexLoop fuel rest false (⟨[c], .GroupBegin, 0⟩ :: acc1)
    else if c = 41 then   -- ')'
      lexLoop fuel rest true (⟨[c], .GroupEnd, 0⟩ :: acc)
    else if c = 91 then   -- '['
      let span := rest.takeWhile (fun x => x ≠ 93)
      if span.length = rest.length then
        .error .UnclosedCharacterRange
      else
        let acc1 := if needConcat then
          ⟨[], .Operator, RegexOperatorType_Concatenate⟩ :: acc else acc
        lexLoop fuel (rest.drop (span.length + 1)) true
          (⟨span, .CharacterRange, 0⟩ :: acc1)
    else
      .error .UnsupportedCharacter

/-- Model of `lex_regex`. -/
def lex_regex (pattern : List Nat) : Except LexError (List RToken) :=
  lexLoop pattern.length pattern false []

/-- The `ParseError` taxonomy: the failure message of `parse_regex` (the "invalid token
type" branch is unreachable from `lex_regex` output). -/
inductive ParseError where
  | MismatchedParentheses
  deriving DecidableEq, Repr

/-- Model of `get_operator_precedence`. -/
def get_operator_precedence (op : Nat) : Int :=
  if op = RegexOperatorType_Alternate then 1
  else if op = RegexOperatorType_Concatenate then 2
  else if op = RegexOperatorType_ZeroOrMore ∨ op = RegexOperatorType_OneOrMore ∨
          op = RegexOperatorType_ZeroOrOne then 3
  else 0

/-- Model of `is_left_associative`. -/
def is_left_associative (op : Nat) : Bool :=
  if op = RegexOperatorType_Alternate ∨ op = RegexOperatorType_Concatenate then true
  else if op = RegexOperatorType_ZeroOrMore ∨ op = RegexOperatorType_OneOrMore ∨
          op = RegexOperatorType_ZeroOrOne then false
  else true

/-- The operator-token `while` loop of `parse_regex`: pop stack operators of
higher precedence (or equal when the incoming operator is left-associative),
stopping at a `GroupBegin`. Returns (reversed popped operators, rest). -/
def popOps : List RToken → Int → Bool → List RToken → List RToken × List RToken
  | [], _, _, out => (out, [])
  | top :: rest, curPrec, curLA, out =>
    if top.type = .GroupBegin then (out, top :: rest)
    else if top.type ≠ .Operator then (out, top :: rest)
    else
      let sp := get_operator_precedence top.encoding
      if sp > curPrec ∨ (sp = curPrec ∧ curLA) then
        popOps rest curPrec curLA (top :: out)
      else (out, top :: rest)

/-- The `GroupEnd` `while` loop of `parse_regex`: pop and emit down to the
matching `GroupBegin`; `none` when no `GroupBegin` is on the stack. -/
def popUntilGroup : List RToken → List RToken → Option (List RToken × List RToken)
  | [], _ => none
  | top :: rest, out =>
    if top.type = .GroupBegin then some (out, rest)
    else popUntilGroup rest (top :: out)

/-- Final stack flush of `parse_regex`: a remaining `GroupBegin` is a
mismatched-parentheses error. -/
def flushOps : List RToken → List RToken → Except ParseError (List RToken)
  | [], out => .ok out.reverse
  | top :: rest, out =>
    if top.type = .GroupBegin then .error .MismatchedParentheses
    else flushOps rest (top :: out)

/-- Main loop of `parse_regex` (shunting yard): token list, reversed output
accumulator, operator stack, next group id. -/
def parseLoop : List RToken → List RToken → List RToken → Nat →
    Except ParseError (List RToken)
  | [], out, ops, _ => flushOps ops out
  | tok :: rest, out, ops, gid =>
    match tok.type with
    | .Character => parseLoop rest (tok :: out) ops gid
    | .CharacterRange => parseLoop rest (tok :: out) ops gid
    | .Operator =>
      let prec := get_operator_precedence tok.encoding
      let la := is_left_associative tok.encoding
      let (popped, ops1) := popOps ops prec la out
      parseLoop rest popped (tok :: ops1) gid
    | .GroupBegin =>
      parseLoop rest out (⟨tok.data, .GroupBegin, gid⟩ :: ops) (gid + 1)
    | .GroupEnd =>
      match popUntilGroup ops out with
      | none => .error .MismatchedParentheses
      | some (out1, ops1) => parseLoop rest out1 ops1 gid

/-- Model of `parse_regex` (infix to postfix via shunting yard). -/
def parse_regex (tokens : List RToken) : Except ParseError (List RToken) :=
  parseLoop tokens [] [] 1

/- enum RegexInstrOpCode -/
@[simp] def RegexInstrOpCode_TestSingle : Nat := 0
@[simp] def RegexInstrOpCode_TestRange : Nat := 1
@[simp] def RegexInstrOpCode_TestNegatedRange : Nat := 2
@[simp] def RegexInstrOpCode_TestAny : Nat := 3
@[simp] def RegexInstrOpCode_TestDigit : Nat := 4
@[simp] def RegexInstrOpCode_TestLowerCase : Nat := 5
@[simp] def RegexInstrOpCode_TestUpperCase : Nat := 6
@[simp] def RegexInstrOpCode_JumpEq : Nat := 7
@[simp] def RegexInstrOpCode_JumpNeq : Nat := 8
@[simp] def RegexInstrOpCode_Accept : Nat := 9
@[simp] def RegexInstrOpCode_Fail : Nat := 10
@[simp] def RegexInstrOpCode_GroupStart : Nat := 11
@[simp] def RegexInstrOpCode_GroupEnd : Nat := 12
@[simp] def RegexInstrOpCode_IncPos : Nat := 13
@[simp] def RegexInstrOpCode_DecPos : Nat := 14
@[simp] def RegexInstrOpCode_IncPosEq : Nat := 15
@[simp] def RegexInstrOpCode_JumpPos : Nat := 16
@[simp] def RegexInstrOpCode_SetFlag : Nat := 17

/- enum RegexInstrOpType (fragment tags) -/
@[simp] def RegexInstrOpType_TestOp : Nat := 0
@[simp] def RegexInstrOpType_UnaryOp : Nat := 1
@[simp] def RegexInstrOpType_BinaryOp : Nat := 2
@[simp] def RegexInstrOpType_GroupOp : Nat := 3

/-- Sentinel `JUMP_FAIL = std::numeric_limits<int>::max()`. -/
def JUMP_FAIL : Int := 2147483647

/-- Model of `encode_jump`: the four big-endian bytes of a signed 32-bit offset
(`(jump_size >> k) & 0xFF`), i.e. the bytes of the value mod 2^32. -/
def encode_jump (j : Int) : List Nat :=
  let v := (j % 4294967296).toNat
  [v / 16777216 % 256, v / 65536 % 256, v / 256 % 256, v % 256]

/-- Model of `decode_jump`: reassemble the signed 32-bit offset from the four bytes
at position `pos`. -/
def decode_jump (code : List Nat) (pos : Nat) : Int :=
  let v := code.getD pos 0 * 16777216 + code.getD (pos + 1) 0 * 65536 +
           code.getD (pos + 2) 0 * 256 + code.getD (pos + 3) 0
  if v < 2147483648 then (v : Int) else (v : Int) - 4294967296

/-- Model of `emit_jump`: append the opcode and a zero 4-byte operand; return the new
code and the operand's position. -/
def emit_jump (code : List Nat) (op : Nat) : List Nat × Nat :=
  (code ++ op :: encode_jump 0, code.length + 1)

/-- Model of `patch_jump`: overwrite the 4 operand bytes at `pos` in place. -/
def patch_jump (code : List Nat) (pos : Nat) (off : Int) : List Nat :=
  let e := encode_jump off
  ((((code.set pos (e.getD 0 0)).set (pos + 1) (e.getD 1 0)).set
      (pos + 2) (e.getD 2 0)).set (pos + 3) (e.getD 3 0))

/-- Model of `get_range_instrs`: dedicated opcodes for the canonical ranges, generic
`TestRange` otherwise; each followed by `IncPosEq`. -/
def get_range_instrs (lo hi : Nat) : List Nat :=
  if lo = 48 ∧ hi = 57 then [RegexInstrOpCode_TestDigit, RegexInstrOpCode_IncPosEq]
  else if lo = 97 ∧ hi = 122 then [RegexInstrOpCode_TestLowerCase, RegexInstrOpCode_IncPosEq]
  else if lo = 65 ∧ hi = 90 then [RegexInstrOpCode_TestUpperCase, RegexInstrOpCode_IncPosEq]
  else [RegexInstrOpCode_TestRange, lo, hi, RegexInstrOpCode_IncPosEq]

/-- Model of `Fragment = std::pair<std::uint32_t, RegexByteCode>`. -/
structure Frag where
  ty : Nat
  code : List Nat
  deriving DecidableEq, Repr

/-- One iteration of the token loop of `regex_emit`, acting on the fragment
stack; `none` models the fragment-stack underflow the C++ leaves undefined. -/
def emitStep (stack : List Frag) (tok : RToken) : Option (List Frag) :=
  match tok.type with
  | .Character =>
    let tests :=
      if tok.encoding = RegexCharacterType_Single then
        [RegexInstrOpCode_TestSingle, tok.data.getD 0 0]
      else if tok.encoding = RegexCharacterType_Any then
        [RegexInstrOpCode_TestAny]
      else []
    some (⟨RegexInstrOpType_TestOp, tests ++ [RegexInstrOpCode_IncPosEq]⟩ :: stack)
  | .CharacterRange =>
    some (⟨RegexInstrOpType_TestOp,
           get_range_instrs (tok.data.getD 0 0) (tok.data.getD 2 0)⟩ :: stack)
  | .GroupBegin =>
    some (⟨RegexInstrOpType_GroupOp,
           [RegexInstrOpCode_GroupStart, tok.encoding % 256]⟩ :: stack)
  | .GroupEnd =>
    some (⟨RegexInstrOpType_GroupOp,
           [RegexInstrOpCode_GroupEnd, tok.encoding % 256]⟩ :: stack)
  | .Operator =>
    if tok.encoding = RegexOperatorType_Alternate then
      match stack with
      | rhs :: lhs :: rest =>
        let (f1, jpos) := emit_jump lhs.code RegexInstrOpCode_JumpEq
        let f2 := f1 ++ rhs.code
        let off : Int := (f2.length : Int) - ((jpos : Int) - 1)
        some (⟨RegexInstrOpType_BinaryOp, patch_jump f2 jpos off⟩ :: rest)
      | _ => none
    else if tok.encoding = RegexOperatorType_Concatenate then
      match stack with
      | rhs :: lhs :: rest =>
        let (f1, jpos) := emit_jump lhs.code RegexInstrOpCode_JumpNeq
        let f2 := patch_jump f1 jpos JUMP_FAIL
        some (⟨RegexInstrOpType_BinaryOp, f2 ++ rhs.code⟩ :: rest)
      | _ => none
    else if tok.encoding = RegexOperatorType_ZeroOrMore then
      match stack with
      | body :: rest =>
        let offBack : Int := 0 - (body.code.length : Int)
        let (f1, jpos) := emit_jump body.code RegexInstrOpCode_JumpEq
        let f2 := patch_jump f1 jpos offBack
        some (⟨RegexInstrOpType_UnaryOp,
               f2 ++ [RegexInstrOpCode_SetFlag, 1]⟩ :: rest)
      | _ => none
    else if tok.encoding = RegexOperatorType_OneOrMore then
      match stack with
      | body :: rest =>
        let (f1, failPos) := emit_jump body.code RegexInstrOpCode_JumpNeq
        let f2 := patch_jump f1 failPos JUMP_FAIL
        let loopStart := f2.length
        let f3 := f2 ++ body.code
        let (f4, exitPos) := emit_jump f3 RegexInstrOpCode_JumpNeq
        let f5 := f4 ++ [RegexInstrOpCode_SetFlag, 1]
        let offBack : Int := (loopStart : Int) - (f5.length : Int)
        let (f6, loopPos) := emit_jump f5 RegexInstrOpCode_JumpEq
        let f7 := patch_jump f6 loopPos offBack
        let f8 := patch_jump f7 exitPos ((f7.length : Int) - ((exitPos : Int) - 1))
        some (⟨RegexInstrOpType_UnaryOp, f8⟩ :: rest)
      | _ => none
    else if tok.encoding = RegexOperatorType_ZeroOrOne then
      match stack with
      | body :: rest =>
        some (⟨RegexInstrOpType_UnaryOp,
               body.code ++ [RegexInstrOpCode_SetFlag, 1]⟩ :: rest)
      | _ => none
    else
      some stack

/-- Loop body of the final patch pass of `regex_emit`: scan the byte stream
at instruction granularity and rewrite every jump operand still holding
`JUMP_FAIL` to `program.length - (opcode_address + 5)`. The first argument
is structural fuel: `i` grows by at least 1 per iteration and `patch_jump`
preserves the length, so starting the fuel at `code.length` (as `patchPass`
does) the `0` case is unreachable. -/
def patchLoop : Nat → List Nat → Nat → List Nat
  | 0, code, _ => code
  | fuel + 1, code, i =>
    if i < code.length then
      let op := code.getD i 0
      if op = RegexInstrOpCode_JumpEq ∨ op = RegexInstrOpCode_JumpNeq then
        let off := decode_jump code (i + 1)
        let code2 :=
          if off = JUMP_FAIL then
            patch_jump code (i + 1) ((code.length : Int) - ((i : Int) + 5))
          else code
        patchLoop fuel code2 (i + 5)
      else if op = RegexInstrOpCode_JumpPos then patchLoop fuel code (i + 5)
      else if op = RegexInstrOpCode_TestSingle ∨ op = RegexInstrOpCode_SetFlag then
        patchLoop fuel code (i + 2)
      else if op = RegexInstrOpCode_TestRange ∨ op = RegexInstrOpCode_TestNegatedRange then
        patchLoop fuel code (i + 3)
      else patchLoop fuel code (i + 1)
    else code

/-- The final patch pass (`while(i < bytecode.size())` scan in `regex_emit`). -/
def patchPass (code : List Nat) (i : Nat) : List Nat :=
  patchLoop code.length code i

/-- Prefix of `regex_emit` up to (excluding) the patch pass, for a nonempty fragment
stack: pop the top fragment, append the final fail-sentinel `JumpNeq`,
`Accept` and `Fail`. -/
def regex_assemble (tokens : List RToken) : Option (List Nat) :=
  match List.foldlM emitStep [] tokens with
  | none => none
  | some [] => none
  | some (top :: _) =>
    let (b1, fj) := emit_jump top.code RegexInstrOpCode_JumpNeq
    some (patch_jump b1 fj JUMP_FAIL ++ [RegexInstrOpCode_Accept, RegexInstrOpCode_Fail])

/-- Model of `regex_emit`: token loop over the fragment stack, final assembly
(`Accept`-only program for an empty stack), then the patch pass. -/
def regex_emit (tokens : List RToken) : Option (List Nat) :=
  match List.foldlM emitStep [] tokens with
  | none => none
  | some [] => some [RegexInstrOpCode_Accept]
  | some (_ :: _) => (regex_assemble tokens).map (fun c => patchPass c 0)

/-- struct RegexVM's mutable cursors: string position, program counter and
the boolean test register. -/
structure VMState where
  sp : Nat
  pc : Nat
  flag : Bool
  deriving DecidableEq, Repr

/-- Reading `vm->string[vm->sp]`: `std::string::operator[]` yields the terminating
NUL at `sp = size()` (the VM loop guarantees `sp ≤ size()`). -/
def strAt (s : List Nat) (i : Nat) : Nat := s.getD i 0

/-- The 64-bit `std::size_t` wrap-around for cursor arithmetic. -/
def wrap64 (i : Int) : Nat := (i % 18446744073709551616).toNat

/-- One iteration of the `regex_exec` switch: `Sum.inl` is the updated VM
state, `Sum.inr` a returned match result (`Accept`, `Fail` or the
unknown-instruction branch). -/
def regexStep (code s : List Nat) (st : VMState) : VMState ⊕ Bool :=
  let op := code.getD st.pc 0
  if op = RegexInstrOpCode_TestSingle then
    .inl ⟨st.sp, st.pc + 2, strAt s st.sp == code.getD (st.pc + 1) 0⟩
  else if op = RegexInstrOpCode_TestRange then
    .inl ⟨st.sp, st.pc + 3,
      decide (signedByte (code.getD (st.pc + 1) 0) ≤ signedByte (strAt s st.sp) ∧
              signedByte (strAt s st.sp) ≤ signedByte (code.getD (st.pc + 2) 0))⟩
  else if op = RegexInstrOpCode_TestNegatedRange then
    .inl ⟨st.sp, st.pc + 3,
      decide (signedByte (strAt s st.sp) < signedByte (code.getD (st.pc + 1) 0) ∧
              signedByte (code.getD (st.pc + 2) 0) < signedByte (strAt s st.sp))⟩
  else if op = RegexInstrOpCode_TestAny then
    .inl ⟨st.sp, st.pc + 1, true⟩
  else if op = RegexInstrOpCode_TestDigit then
    .inl ⟨st.sp, st.pc + 1, isDigitB (strAt s st.sp)⟩
  else if op = RegexInstrOpCode_TestLowerCase then
    .inl ⟨st.sp, st.pc + 1, isLowerB (strAt s st.sp)⟩
  else if op = RegexInstrOpCode_TestUpperCase then
    .inl ⟨st.sp, st.pc + 1, isUpperB (strAt s st.sp)⟩
  else if op = RegexInstrOpCode_JumpEq then
    if st.flag then
      let jmp := decode_jump code (st.pc + 1)
      .inl ⟨st.sp, wrap64 (((if 0 < jmp then st.pc + 5 else st.pc) : Int) + jmp), st.flag⟩
    else .inl ⟨st.sp, st.pc + 5, st.flag⟩
  else if op = RegexInstrOpCode_JumpNeq then
    if !st.flag then
      let jmp := decode_jump code (st.pc + 1)
      .inl ⟨st.sp, wrap64 (((if 0 < jmp then st.pc + 5 else st.pc) : Int) + jmp), st.flag⟩
    else .inl ⟨st.sp, st.pc + 5, st.flag⟩
  else if op = RegexInstrOpCode_Accept then .inr true
  else if op = RegexInstrOpCode_Fail then .inr false
  else if op = RegexInstrOpCode_GroupStart then .inl ⟨st.sp, st.pc + 2, st.flag⟩
  else if op = RegexInstrOpCode_GroupEnd then .inl ⟨st.sp, st.pc + 2, st.flag⟩
  else if op = RegexInstrOpCode_IncPos then .inl ⟨st.sp + 1, st.pc + 1, st.flag⟩
  else if op = RegexInstrOpCode_DecPos then
    .inl ⟨wrap64 ((st.sp : Int) - 1), st.pc + 1, st.flag⟩
  else if op = RegexInstrOpCode_IncPosEq then
    .inl ⟨st.sp + (if st.flag then 1 else 0), st.pc + 1, st.flag⟩
  else if op = RegexInstrOpCode_JumpPos then
    .inl ⟨wrap64 ((st.sp : Int) + decode_jump code (st.pc + 1)), st.pc + 5, st.flag⟩
  else if op = RegexInstrOpCode_SetFlag then
    .inl ⟨st.sp, st.pc + 2, code.getD (st.pc + 1) 0 != 0⟩
  else .inr false

/-- Model of `regex_exec`: the fetch-decode-execute `while` loop, with explicit fuel
(`none` = fuel ran out before the loop finished); leaving the loop
(`pc` or `sp` out of bounds) returns `false`. -/
def regex_exec (code s : List Nat) : Nat → VMState → Option Bool
  | 0, _ => none
  | fuel + 1, st =>
    if st.pc < code.length ∧ st.sp ≤ s.length then
      match regexStep code s st with
      | .inr b => some b
      | .inl st2 => regex_exec code s fuel st2
    else some false

/-- The `CompileError` taxonomy: which stage of `Regex::_compile` failed. -/
inductive CompileError where
  | lexErr (e : LexError)
  | parseErr (e : ParseError)
  | emitErr
  deriving DecidableEq, Repr

/-- The byte stream of `regex_emit` after final assembly but before the
patch pass (lex → parse → `regex_assemble`): used to state what the patch
pass rewrites. -/
def compile_prepatch (pattern : List Nat) : Option (List Nat) :=
  match lex_regex pattern with
  | .error _ => none
  | .ok tokens =>
    match parse_regex tokens with
    | .error _ => none
    | .ok postTokens => regex_assemble postTokens

/-- The assembled byte stream for "a*b|cd" before the patch pass (proved
equal to `compile_prepatch (strBytes "a*b|cd")` below): three jump operands
still hold the `JUMP_FAIL` sentinel bytes `[127, 255, 255, 255]` (at 11,
27, 35) and the alternate's genuine operand at 19 holds 16. -/
def bcAltPre : List Nat :=
  [0, 97, 15, 7, 255, 255, 255, 253, 17, 1, 8, 127, 255, 255, 255,
   0, 98, 15, 7, 0, 0, 0, 16, 0, 99, 15, 8, 127, 255, 255, 255,
   0, 100, 15, 8, 127, 255, 255, 255, 9, 10]

/-- The compiled bytecode for "a*b|cd" (proved equal to
`regex_compile (strBytes "a*b|cd")` below): the three sentinel operands now
hold 26, 10 and 2, the genuine operand at 19 still holds 16. -/
def bcAltPost : List Nat :=
  [0, 97, 15, 7, 255, 255, 255, 253, 17, 1, 8, 0, 0, 0, 26,
   0, 98, 15, 7, 0, 0, 0, 16, 0, 99, 15, 8, 0, 0, 0, 10,
   0, 100, 15, 8, 0, 0, 0, 2, 9, 10]

/-- The compiled bytecode for "(a*)*" (proved equal to the compiler output
in the C8 counterexample): once the inner "a*" body fails without moving
the cursor, `SetFlag 1` at 8 and the outer backward `JumpEq` at 10 send
execution back to 0 with `sp` unchanged, forever. -/
def bcNestedStar : List Nat :=
  [0, 97, 15, 7, 255, 255, 255, 253, 17, 1, 7, 255, 255, 255, 246, 17, 1,
   8, 0, 0, 0, 2, 9, 10]

/-- The compiled bytecode for "[0-9]*" (proved equal to the compiler output
in C1/C5). -/
def bcDigitsStar : List Nat :=
  [4, 15, 7, 255, 255, 255, 254, 17, 1, 8, 0, 0, 0, 2, 9, 10]

/-- Model of `Regex::_compile`: lex → parse → emit, reporting the failing stage. -/
def regex_compile (pattern : List Nat) : Except CompileError (List Nat) :=
  match lex_regex pattern with
  | .error e => .error (.lexErr e)
  | .ok tokens =>
    match parse_regex tokens with
    | .error e => .error (.parseErr e)
    | .ok postTokens =>
      match regex_emit postTokens with
      | none => .error .emitErr
      | some bc => .ok bc

/-- class Regex: `_bytecode` is cleared first and only assigned on a fully
successful compilation, so it stays empty whenever any stage fails. -/
structure Regex where
  bytecode : List Nat
  deriving DecidableEq, Repr

/-- The `Regex(pattern)` constructor. -/
def Regex.compile (pattern : List Nat) : Regex :=
  ⟨match regex_compile pattern with
    | .ok bc => bc
    | .error _ => []⟩

/-- Model of `Regex::match`: `false` for an empty bytecode, otherwise run the VM from
`sp = 0`, `pc = 0`, `status_flag = false`. -/
def Regex.matchFuel (r : Regex) (s : List Nat) (fuel : Nat) : Option Bool :=
  if r.bytecode.length = 0 then some false
  else regex_exec r.bytecode s fuel ⟨0, 0, false⟩

/-! ### General lemmas about the VM loop -/

/-- Unfolding one VM iteration when the loop guard holds and the switch
continues with a new state. -/
theorem regex_exec_step (code s : List Nat) (fuel : Nat) (st st2 : VMState)
    (h1 : st.pc < code.length) (h2 : st.sp ≤ s.length)
    (h3 : regexStep code s st = .inl st2) :
    regex_exec code s (fuel + 1) st = regex_exec code s fuel st2 := by
  simp [regex_exec, h1, h2, h3]

/-- Executing `Accept` returns true immediately, whatever `sp` is (within
the loop bound `sp ≤ input.length`). -/
theorem regex_exec_accept (code s : List Nat) (st : VMState) (fuel : Nat)
    (hop : code.getD st.pc 0 = RegexInstrOpCode_Accept)
    (hpc : st.pc < code.length) (hsp : st.sp ≤ s.length) :
    regex_exec code s (fuel + 1) st = some true := by
  have hstep : regexStep code s st = .inr true := by
    simp only [regexStep, hop, RegexInstrOpCode_Accept]
    norm_num
  simp [regex_exec, hpc, hsp, hstep]

/-- A test instruction `TestDigit` sets the flag from the current byte. -/
theorem regexStep_testDigit (code s : List Nat) (st : VMState)
    (hop : code.getD st.pc 0 = RegexInstrOpCode_TestDigit) :
    regexStep code s st = .inl ⟨st.sp, st.pc + 1, isDigitB (strAt s st.sp)⟩ := by
  simp only [regexStep, hop]
  norm_num

/-- Executing `IncPosEq` advances `sp` by 1 exactly when the flag is set. -/
theorem regexStep_incPosEq (code s : List Nat) (st : VMState)
    (hop : code.getD st.pc 0 = RegexInstrOpCode_IncPosEq) :
    regexStep code s st =
      .inl ⟨st.sp + (if st.flag then 1 else 0), st.pc + 1, st.flag⟩ := by
  simp only [regexStep, hop]
  norm_num

/-- Executing `SetFlag` overwrites the flag with its operand byte. -/
theorem regexStep_setFlag (code s : List Nat) (st : VMState)
    (hop : code.getD st.pc 0 = RegexInstrOpCode_SetFlag) :
    regexStep code s st =
      .inl ⟨st.sp, st.pc + 2, code.getD (st.pc + 1) 0 != 0⟩ := by
  simp only [regexStep, hop]
  norm_num

/-- A `JumpEq` with the flag set takes the jump: a positive offset is added
to the address past the operand, a non-positive one to the opcode address. -/
theorem regexStep_jumpEq_taken (code s : List Nat) (st : VMState)
    (hop : code.getD st.pc 0 = RegexInstrOpCode_JumpEq) (hflag : st.flag = true) :
    regexStep code s st =
      .inl ⟨st.sp,
        wrap64 (((if 0 < decode_jump code (st.pc + 1) then st.pc + 5 else st.pc) : Int) +
          decode_jump code (st.pc + 1)), st.flag⟩ := by
  simp only [regexStep, hop]
  norm_num [hflag]

/-- A `JumpEq` with the flag clear falls through past the 4-byte operand. -/
theorem regexStep_jumpEq_fallthrough (code s : List Nat) (st : VMState)
    (hop : code.getD st.pc 0 = RegexInstrOpCode_JumpEq) (hflag : st.flag = false) :
    regexStep code s st = .inl ⟨st.sp, st.pc + 5, st.flag⟩ := by
  simp only [regexStep, hop]
  norm_num [hflag]

/-- A `JumpNeq` with the flag clear takes the jump: a positive offset is
added to the address past the operand, a non-positive one to the opcode
address. -/
theorem regexStep_jumpNeq_taken (code s : List Nat) (st : VMState)
    (hop : code.getD st.pc 0 = RegexInstrOpCode_JumpNeq) (hflag : st.flag = false) :
    regexStep code s st =
      .inl ⟨st.sp,
        wrap64 (((if 0 < decode_jump code (st.pc + 1) then st.pc + 5 else st.pc) : Int) +
          decode_jump code (st.pc + 1)), st.flag⟩ := by
  simp only [regexStep, hop]
  norm_num [hflag]

/-- A `JumpNeq` with the flag set falls through past the 4-byte operand. -/
theorem regexStep_jumpNeq_fallthrough (code s : List Nat) (st : VMState)
    (hop : code.getD st.pc 0 = RegexInstrOpCode_JumpNeq) (hflag : st.flag = true) :
    regexStep code s st = .inl ⟨st.sp, st.pc + 5, st.flag⟩ := by
  simp only [regexStep, hop]
  norm_num [hflag]

/-- Function `wrap64` is the identity below 2^64. -/
theorem wrap64_ofNat (n : Nat) (h : n < 18446744073709551616) :
    wrap64 (n : Int) = n := by
  rw [wrap64, Int.emod_eq_of_lt (by omega) (by exact_mod_cast h)]
  exact Int.toNat_natCast n

/-- In-place overwriting at an offset past an unchanged left part. -/
theorem set_append_right (l₁ l₂ : List Nat) (n a : Nat) :
    (l₁ ++ l₂).set (l₁.length + n) a = l₁ ++ l₂.set n a := by
  induction l₁ with
  | nil => simp
  | cons x xs ih =>
    simp only [List.cons_append, List.length_cons]
    rw [Nat.succ_add, List.set]
    simp [ih]

/-- Overwriting the 4 bytes right after a prefix `p` replaces them with the
encoded offset. -/
theorem patch4 (p : List Nat) (z0 z1 z2 z3 : Nat) (off : Int) :
    patch_jump (p ++ [z0, z1, z2, z3]) p.length off = p ++ encode_jump off := by
  induction p with
  | nil => rfl
  | cons x xs ih =>
    simp only [patch_jump, List.cons_append, List.length_cons,
      List.set_cons_succ] at ih ⊢
    rw [ih]

/-- Applying `patch_jump` right after `emit_jump` overwrites exactly the fresh
zeroed operand. -/
theorem patch_jump_at_end (l : List Nat) (op : Nat) (off : Int) :
    patch_jump (l ++ op :: encode_jump 0) (l.length + 1) off =
      l ++ op :: encode_jump off := by
  have h : l ++ op :: encode_jump 0 = (l ++ [op]) ++ [0, 0, 0, 0] := by
    rw [show encode_jump 0 = [0, 0, 0, 0] from rfl]
    simp
  have h2 : l.length + 1 = (l ++ [op]).length := by simp
  rw [h, h2, patch4]
  simp

/-! ### Claims -/

/-- C10: compiling the empty pattern succeeds and yields the
single-instruction program consisting of only `Accept`, and matching that
compiled program returns true for every input string (with any fuel ≥ 1),
including the empty string. -/
theorem C10_empty_pattern :
    regex_compile [] = .ok [RegexInstrOpCode_Accept] ∧
    (Regex.compile []).bytecode = [RegexInstrOpCode_Accept] ∧
    ∀ (s : List Nat) (fuel : Nat),
      (Regex.compile []).matchFuel s (fuel + 1) = some true := by
  refine ⟨by decide, by decide, fun s fuel => ?_⟩
  rw [show Regex.compile [] = ⟨[RegexInstrOpCode_Accept]⟩ from by decide]
  simp [Regex.matchFuel, regex_exec, regexStep, RegexInstrOpCode_Accept,
    RegexInstrOpCode_TestSingle, RegexInstrOpCode_TestRange,
    RegexInstrOpCode_TestNegatedRange, RegexInstrOpCode_TestAny,
    RegexInstrOpCode_TestDigit, RegexInstrOpCode_TestLowerCase,
    RegexInstrOpCode_TestUpperCase, RegexInstrOpCode_JumpEq,
    RegexInstrOpCode_JumpNeq]

/-- C7: compiling "(a|b" fails with the mismatched-parentheses parse error
and compiling "[a-z" fails with the unclosed-character-range lex error;
both return a failed result (total functions, no crash). -/
theorem C7_malformed_patterns :
    regex_compile (strBytes "(a|b") =
      .error (.parseErr .MismatchedParentheses) ∧
    regex_compile (strBytes "[a-z") =
      .error (.lexErr .UnclosedCharacterRange) := by
  decide

/-- C2: "a*b|cd" compiles (to the listed bytecode) and the compiled program
matches "aaaaaacd" and "bd" but not "aaaacacd". -/
theorem C2_alternate_pattern :
    regex_compile (strBytes "a*b|cd") =
      .ok [0, 97, 15, 7, 255, 255, 255, 253, 17, 1, 8, 0, 0, 0, 26,
           0, 98, 15, 7, 0, 0, 0, 16, 0, 99, 15, 8, 0, 0, 0, 10,
           0, 100, 15, 8, 0, 0, 0, 2, 9, 10] ∧
    (Regex.compile (strBytes "a*b|cd")).matchFuel (strBytes "aaaaaacd") 200 =
      some true ∧
    (Regex.compile (strBytes "a*b|cd")).matchFuel (strBytes "bd") 200 =
      some true ∧
    (Regex.compile (strBytes "a*b|cd")).matchFuel (strBytes "aaaacacd") 200 =
      some false := by
  refine ⟨by decide, by decide, by decide, by decide⟩

/-- C1: "[0-9]*" compiles and the compiled program matches "123456789" and
"12345abcde"; moreover, for every program and input, reaching an `Accept`
instruction returns true immediately, regardless of the string cursor's
position within the loop bound `sp ≤ input.length` (the engine does not
require consuming the whole input). -/
theorem C1_digits_star :
    regex_compile (strBytes "[0-9]*") =
      .ok [4, 15, 7, 255, 255, 255, 254, 17, 1, 8, 0, 0, 0, 2, 9, 10] ∧
    (Regex.compile (strBytes "[0-9]*")).matchFuel (strBytes "123456789") 100 =
      some true ∧
    (Regex.compile (strBytes "[0-9]*")).matchFuel (strBytes "12345abcde") 100 =
      some true ∧
    ∀ (code s : List Nat) (st : VMState) (fuel : Nat),
      code.getD st.pc 0 = RegexInstrOpCode_Accept →
      st.pc < code.length → st.sp ≤ s.length →
      regex_exec code s (fuel + 1) st = some true := by
  exact ⟨by decide, by decide, by decide,
    fun code s st fuel hop hpc hsp => regex_exec_accept code s st fuel hop hpc hsp⟩

/-- Witness for C1: the `Accept` clause applied to the one-instruction
program on the empty input. -/
theorem C1_digits_star_witness :
    regex_exec [RegexInstrOpCode_Accept] [] 1 ⟨0, 0, false⟩ = some true :=
  C1_digits_star.2.2.2 [RegexInstrOpCode_Accept] [] ⟨0, 0, false⟩ 0
    (by decide) (by decide) (by decide)

/-- C3 counterexample: in the program compiled from ".", executing the
`TestAny` instruction with the string cursor equal to the input length
(0 = length of the empty input) sets `status_flag` to `true`, not `false`
as claimed. -/
theorem C3_counterexample :
    (Regex.compile (strBytes ".")).bytecode.getD 0 0 = RegexInstrOpCode_TestAny ∧
    (0 : Nat) = ([] : List Nat).length ∧
    regexStep (Regex.compile (strBytes ".")).bytecode [] ⟨0, 0, false⟩ =
      .inl ⟨0, 1, true⟩ := by
  decide

/-- C3 (amended): with `sp = input.length` the read yields the terminating
NUL (value 0, in bounds for `std::string::operator[]`); `TestDigit`,
`TestLowerCase` and `TestUpperCase` then set `status_flag` to false,
`TestSingle` sets it to false whenever its operand byte is nonzero,
`TestRange` whenever its lower operand is positive as a signed char,
`TestNegatedRange` whenever its upper operand is nonnegative as a signed
char — but `TestAny` sets it to `true`. -/
theorem C3_amended (code s : List Nat) (st st2 : VMState)
    (hsp : st.sp = s.length)
    (hstep : regexStep code s st = .inl st2) :
    strAt s st.sp = 0 ∧
    ((code.getD st.pc 0 = RegexInstrOpCode_TestDigit ∨
      code.getD st.pc 0 = RegexInstrOpCode_TestLowerCase ∨
      code.getD st.pc 0 = RegexInstrOpCode_TestUpperCase) → st2.flag = false) ∧
    (code.getD st.pc 0 = RegexInstrOpCode_TestSingle →
      code.getD (st.pc + 1) 0 ≠ 0 → st2.flag = false) ∧
    (code.getD st.pc 0 = RegexInstrOpCode_TestRange →
      0 < signedByte (code.getD (st.pc + 1) 0) → st2.flag = false) ∧
    (code.getD st.pc 0 = RegexInstrOpCode_TestNegatedRange →
      0 ≤ signedByte (code.getD (st.pc + 2) 0) → st2.flag = false) ∧
    (code.getD st.pc 0 = RegexInstrOpCode_TestAny → st2.flag = true) := by
  have hz : strAt s st.sp = 0 := by
    rw [strAt, hsp]
    exact List.getD_eq_default _ _ le_rfl
  have hsb : signedByte (strAt s st.sp) = 0 := by rw [hz]; rfl
  refine ⟨hz, ?_, ?_, ?_, ?_, ?_⟩
  · rintro (hop | hop | hop) <;>
      (simp only [regexStep, hop] at hstep; norm_num at hstep) <;>
      subst hstep <;>
      simp [hz, isDigitB, isLowerB, isUpperB]
  · intro hop hnz
    simp only [regexStep, hop] at hstep
    norm_num at hstep hnz
    subst hstep
    simp only [hz, beq_eq_false_iff_ne]
    omega
  · intro hop hlo
    simp only [regexStep, hop] at hstep
    norm_num at hstep hlo
    subst hstep
    simp only [hsb]
    rw [decide_eq_false (not_le.mpr hlo), Bool.false_and]
  · intro hop hhi
    simp only [regexStep, hop] at hstep
    norm_num at hstep hhi
    subst hstep
    simp only [hsb]
    rw [decide_eq_false (not_lt.mpr hhi), Bool.and_false]
  · intro hop
    simp only [regexStep, hop] at hstep
    norm_num at hstep
    subst hstep
    rfl

/-- Witness for C3 (amended): `TestDigit` at the end of the empty input. -/
theorem C3_amended_witness :
    regexStep [RegexInstrOpCode_TestDigit] [] ⟨0, 0, true⟩ = .inl ⟨0, 1, false⟩ ∧
    (⟨0, 1, false⟩ : VMState).flag = false :=
  ⟨by decide,
   (C3_amended [RegexInstrOpCode_TestDigit] [] ⟨0, 0, true⟩ ⟨0, 1, false⟩
      (by decide) (by decide)).2.1 (Or.inl (by decide))⟩

/-- C4 counterexample: in the program compiled from "a*", the backward
`JumpEq` at address 3 carries offset −3; taking it from `pc = 3` lands at
`pc = 0` (opcode address plus offset), not at
`pc_after_operand + offset = 3 + 5 − 3 = 5` as the claim states. -/
theorem C4_counterexample :
    (Regex.compile (strBytes "a*")).bytecode.getD 3 0 = RegexInstrOpCode_JumpEq ∧
    decode_jump (Regex.compile (strBytes "a*")).bytecode 4 = -3 ∧
    regexStep (Regex.compile (strBytes "a*")).bytecode (strBytes "a") ⟨1, 3, true⟩ =
      .inl ⟨1, 0, true⟩ ∧
    ((3 : Int) + 5 + (-3) = 5 ∧ (0 : Nat) ≠ 5) := by
  decide

/-- C4 (amended): when `status_flag` matches the jump's polarity, a
*positive* decoded offset is added to the address of the byte after the
4-byte operand (`next_pc = pc_after_operand + offset`), but a non-positive
offset is added to the opcode address itself
(`next_pc = opcode_address + offset = pc_after_operand + offset − 5`);
when the flag does not match, the VM falls through past the operand. -/
theorem C4_amended (code s : List Nat) (st : VMState)
    (hop : code.getD st.pc 0 = RegexInstrOpCode_JumpEq ∨
           code.getD st.pc 0 = RegexInstrOpCode_JumpNeq) :
    ((if code.getD st.pc 0 = RegexInstrOpCode_JumpEq then st.flag else !st.flag) = true →
      (0 < decode_jump code (st.pc + 1) →
        regexStep code s st =
          .inl ⟨st.sp, wrap64 ((st.pc : Int) + 5 + decode_jump code (st.pc + 1)),
                st.flag⟩) ∧
      (decode_jump code (st.pc + 1) ≤ 0 →
        regexStep code s st =
          .inl ⟨st.sp, wrap64 ((st.pc : Int) + decode_jump code (st.pc + 1)),
                st.flag⟩)) ∧
    ((if code.getD st.pc 0 = RegexInstrOpCode_JumpEq then st.flag else !st.flag) = false →
      regexStep code s st = .inl ⟨st.sp, st.pc + 5, st.flag⟩) := by
  rcases hop with hop | hop
  · rw [hop]
    simp only [eq_self_iff_true, if_true]
    refine ⟨fun hflag => ⟨fun hpos => ?_, fun hpos => ?_⟩, fun hflag => ?_⟩
    · rw [regexStep_jumpEq_taken code s st hop hflag, if_pos hpos]
    · rw [regexStep_jumpEq_taken code s st hop hflag, if_neg (not_lt.mpr hpos)]
    · exact regexStep_jumpEq_fallthrough code s st hop hflag
  · rw [hop]
    rw [if_neg (by decide)]
    refine ⟨fun hflag => ⟨fun hpos => ?_, fun hpos => ?_⟩, fun hflag => ?_⟩
    · rw [regexStep_jumpNeq_taken code s st hop (by simpa using hflag), if_pos hpos]
    · rw [regexStep_jumpNeq_taken code s st hop (by simpa using hflag),
        if_neg (not_lt.mpr hpos)]
    · exact regexStep_jumpNeq_fallthrough code s st hop (by simpa using hflag)

/-- Witness for C4 (amended): a `JumpEq` with positive offset 10 at `pc = 0`
jumps to `0 + 5 + 10 = 15`. -/
theorem C4_amended_witness :
    regexStep [RegexInstrOpCode_JumpEq, 0, 0, 0, 10] [] ⟨0, 0, true⟩ =
      .inl ⟨0, 15, true⟩ :=
  ((C4_amended [RegexInstrOpCode_JumpEq, 0, 0, 0, 10] [] ⟨0, 0, true⟩
      (Or.inl (by decide))).1 (by decide)).1 (by decide)

/-- C5 counterexample: in the compiled "[0-9]*" program (16 bytes, trailing
`Fail` at address 15), taking the patched `JumpNeq` at address 9 (offset
`16 - (10 + 4) = 2`) sets `pc = 16 = program.length`, one byte *past* the
trailing `Fail` instruction, so the claim's "lands execution on the
trailing Fail instruction" is false; the VM then leaves its loop and
returns false without executing `Fail`. -/
theorem C5_counterexample :
    regex_compile (strBytes "[0-9]*") =
      .ok [4, 15, 7, 255, 255, 255, 254, 17, 1, 8, 0, 0, 0, 2, 9, 10] ∧
    [4, 15, 7, 255, 255, 255, 254, 17, 1, 8, 0, 0, 0, 2, 9, 10].getD 15 0 =
      RegexInstrOpCode_Fail ∧
    regexStep [4, 15, 7, 255, 255, 255, 254, 17, 1, 8, 0, 0, 0, 2, 9, 10] []
        ⟨0, 9, false⟩ = .inl ⟨0, 16, false⟩ ∧
    (16 : Nat) ≠ 15 ∧
    regex_exec [4, 15, 7, 255, 255, 255, 254, 17, 1, 8, 0, 0, 0, 2, 9, 10] [] 1
        ⟨0, 16, false⟩ = some false := by
  decide

/-- C5 (amended): the patch pass rewrites every jump operand still holding
the `JUMP_FAIL` sentinel with `program.length - (jump_operand_address + 4)`
and leaves non-sentinel operands unchanged; taking such a patched jump sets
`pc = program.length` — one byte past the trailing `Fail` — after which the
VM loop exits and returns false (the same result as executing `Fail`).
Shown generally for the jump semantics and loop exit, and concretely on the
"a*b|cd" byte stream before/after the pass. -/
theorem C5_patch_pass :
    (∀ (code s : List Nat) (st : VMState),
      code.getD st.pc 0 = RegexInstrOpCode_JumpNeq → st.flag = false →
      code.length < 18446744073709551616 →
      decode_jump code (st.pc + 1) = (code.length : Int) - ((st.pc : Int) + 5) →
      (st.pc : Int) + 5 < (code.length : Int) →
      regexStep code s st = .inl ⟨st.sp, code.length, false⟩) ∧
    (∀ (code s : List Nat) (fuel : Nat) (st : VMState),
      st.pc = code.length →
      regex_exec code s (fuel + 1) st = some false) ∧
    compile_prepatch (strBytes "a*b|cd") = some bcAltPre ∧
    patchPass bcAltPre 0 = bcAltPost ∧
    regex_compile (strBytes "a*b|cd") = .ok bcAltPost ∧
    (decode_jump bcAltPre 11 = JUMP_FAIL ∧
      decode_jump bcAltPost 11 = (41 : Int) - (11 + 4)) ∧
    (decode_jump bcAltPre 27 = JUMP_FAIL ∧
      decode_jump bcAltPost 27 = (41 : Int) - (27 + 4)) ∧
    (decode_jump bcAltPre 35 = JUMP_FAIL ∧
      decode_jump bcAltPost 35 = (41 : Int) - (35 + 4)) ∧
    (decode_jump bcAltPre 19 = 16 ∧ decode_jump bcAltPost 19 = 16) := by
  refine ⟨?_, ?_, by decide, by decide, by decide, by decide, by decide,
    by decide, by decide⟩
  · intro code s st hop hflag hlen hoff hpos
    have hjpos : 0 < decode_jump code (st.pc + 1) := by rw [hoff]; omega
    rw [regexStep_jumpNeq_taken code s st hop hflag, if_pos hjpos, hoff, hflag]
    have harg : (st.pc : Int) + 5 +
        ((code.length : Int) - ((st.pc : Int) + 5)) = (code.length : Int) := by
      ring
    rw [harg, wrap64_ofNat code.length hlen]
  · intro code s fuel st h
    simp [regex_exec, h]

/-- Witness for C5 (amended): the final patched `JumpNeq` of "a*b|cd" at
address 34 jumps to `pc = 41 = length`, and the loop then exits with
false. -/
theorem C5_patch_pass_witness :
    regexStep bcAltPost [] ⟨0, 34, false⟩ = .inl ⟨0, 41, false⟩ ∧
    regex_exec bcAltPost [] 1 ⟨0, 41, false⟩ = some false :=
  ⟨C5_patch_pass.1 bcAltPost [] ⟨0, 34, false⟩ (by decide) (by decide)
      (by decide) (by decide) (by decide),
   C5_patch_pass.2.1 bcAltPost [] 0 ⟨0, 41, false⟩ (by decide)⟩

/-- C6 counterexample: during compilation of "a*b" the Concatenate operator
is processed with a left fragment tagged `UnaryOp` (the "a*" loop), not a
test fragment, yet a `JumpNeq` carrying the `JUMP_FAIL` sentinel is still
inserted right after it (visible at offset 10 of the compiled program), so
"exactly when the left fragment is a test fragment" is false. -/
theorem C6_counterexample :
    emitStep [⟨RegexInstrOpType_TestOp, [0, 98, 15]⟩,
              ⟨RegexInstrOpType_UnaryOp, [0, 97, 15, 7, 255, 255, 255, 253, 17, 1]⟩]
        ⟨[], .Operator, RegexOperatorType_Concatenate⟩ =
      some [⟨RegexInstrOpType_BinaryOp,
             [0, 97, 15, 7, 255, 255, 255, 253, 17, 1,
              8, 127, 255, 255, 255, 0, 98, 15]⟩] ∧
    RegexInstrOpType_UnaryOp ≠ RegexInstrOpType_TestOp ∧
    regex_compile (strBytes "a*b") =
      .ok [0, 97, 15, 7, 255, 255, 255, 253, 17, 1, 8, 0, 0, 0, 10,
           0, 98, 15, 8, 0, 0, 0, 2, 9, 10] ∧
    [0, 97, 15, 7, 255, 255, 255, 253, 17, 1, 8, 0, 0, 0, 10,
     0, 98, 15, 8, 0, 0, 0, 2, 9, 10].getD 10 0 = RegexInstrOpCode_JumpNeq := by
  decide

/-- C6 (amended): the Concatenate case pops the right fragment then the
left (the stack top is the right operand), *unconditionally* inserts a
`JumpNeq` carrying the `JUMP_FAIL` sentinel immediately after the left
fragment — whatever the left fragment's tag is — appends the right fragment
unchanged, and tags the result `BinaryOp`. -/
theorem C6_amended (r l : Frag) (rest : List Frag) :
    emitStep (r :: l :: rest) ⟨[], .Operator, RegexOperatorType_Concatenate⟩ =
      some (⟨RegexInstrOpType_BinaryOp,
             (l.code ++ RegexInstrOpCode_JumpNeq :: encode_jump JUMP_FAIL) ++
               r.code⟩ :: rest) := by
  simp only [emitStep, emit_jump]
  norm_num
  rw [patch_jump_at_end]
  simp

/-- On the empty input, the "(a*)*" program cycles through six VM states
without ever leaving the interpreter loop, so no amount of fuel finishes
it. -/
theorem bcNestedStar_cycles (fuel : Nat) :
    ∀ st ∈ ([⟨0, 0, false⟩, ⟨0, 0, true⟩, ⟨0, 2, false⟩, ⟨0, 3, false⟩,
             ⟨0, 8, false⟩, ⟨0, 10, true⟩] : List VMState),
      regex_exec bcNestedStar [] fuel st = none := by
  induction fuel with
  | zero => intro st _; rfl
  | succ n ih =>
    intro st hst
    fin_cases hst
    · rw [regex_exec_step bcNestedStar [] n _ ⟨0, 2, false⟩ (by decide) (by decide)
        (by decide)]
      exact ih ⟨0, 2, false⟩ (by decide)
    · rw [regex_exec_step bcNestedStar [] n _ ⟨0, 2, false⟩ (by decide) (by decide)
        (by decide)]
      exact ih ⟨0, 2, false⟩ (by decide)
    · rw [regex_exec_step bcNestedStar [] n _ ⟨0, 3, false⟩ (by decide) (by decide)
        (by decide)]
      exact ih ⟨0, 3, false⟩ (by decide)
    · rw [regex_exec_step bcNestedStar [] n _ ⟨0, 8, false⟩ (by decide) (by decide)
        (by decide)]
      exact ih ⟨0, 8, false⟩ (by decide)
    · rw [regex_exec_step bcNestedStar [] n _ ⟨0, 10, true⟩ (by decide) (by decide)
        (by decide)]
      exact ih ⟨0, 10, true⟩ (by decide)
    · rw [regex_exec_step bcNestedStar [] n _ ⟨0, 0, true⟩ (by decide) (by decide)
        (by decide)]
      exact ih ⟨0, 0, true⟩ (by decide)

/-- C8 counterexample: "(a*)*" compiles successfully, but executing the
compiled program on the empty input never terminates — the outer loop-back
jump is taken from a state whose test did not advance the cursor. -/
theorem C8_counterexample :
    regex_compile (strBytes "(a*)*") = .ok bcNestedStar ∧
    ¬ ∃ (fuel : Nat) (b : Bool),
        (Regex.compile (strBytes "(a*)*")).matchFuel [] fuel = some b := by
  refine ⟨by decide, ?_⟩
  rintro ⟨fuel, b, h⟩
  rw [show Regex.compile (strBytes "(a*)*") = ⟨bcNestedStar⟩ from by decide] at h
  rw [show Regex.matchFuel ⟨bcNestedStar⟩ [] fuel =
        regex_exec bcNestedStar [] fuel ⟨0, 0, false⟩ from by
      simp [Regex.matchFuel, bcNestedStar]] at h
  rw [bcNestedStar_cycles fuel ⟨0, 0, false⟩ (by decide)] at h
  exact Option.noConfusion h

/-- The backward loop jump of the "[0-9]*" program returns to the test. -/
theorem bcDigitsStar_loopback (s : List Nat) (sp : Nat) :
    regexStep bcDigitsStar s ⟨sp, 2, true⟩ = .inl ⟨sp, 0, true⟩ := by
  rw [regexStep_jumpEq_taken bcDigitsStar s ⟨sp, 2, true⟩ rfl rfl]
  norm_num [decode_jump, bcDigitsStar, wrap64]

/-- When the current byte is not a digit, the "[0-9]*" program reaches
`Accept` in six steps: failed test, no advance, fall through the loop jump,
`SetFlag 1`, fall through the fail jump, `Accept`. -/
theorem bcDigitsStar_acceptsNonDigit (s : List Nat) (sp : Nat) (f : Bool)
    (hnd : isDigitB (strAt s sp) = false) (hsp : sp ≤ s.length) :
    regex_exec bcDigitsStar s 6 ⟨sp, 0, f⟩ = some true := by
  have e1 : regex_exec bcDigitsStar s 6 ⟨sp, 0, f⟩ =
      regex_exec bcDigitsStar s 5 ⟨sp, 1, false⟩ :=
    regex_exec_step _ _ 5 _ _ (by simp [bcDigitsStar]) hsp
      (by rw [regexStep_testDigit bcDigitsStar s ⟨sp, 0, f⟩ rfl]; rw [hnd])
  have e2 : regex_exec bcDigitsStar s 5 ⟨sp, 1, false⟩ =
      regex_exec bcDigitsStar s 4 ⟨sp, 2, false⟩ :=
    regex_exec_step _ _ 4 _ _ (by simp [bcDigitsStar]) hsp
      (regexStep_incPosEq bcDigitsStar s ⟨sp, 1, false⟩ rfl)
  have e3 : regex_exec bcDigitsStar s 4 ⟨sp, 2, false⟩ =
      regex_exec bcDigitsStar s 3 ⟨sp, 7, false⟩ :=
    regex_exec_step _ _ 3 _ _ (by simp [bcDigitsStar]) hsp
      (regexStep_jumpEq_fallthrough bcDigitsStar s ⟨sp, 2, false⟩ rfl rfl)
  have e4 : regex_exec bcDigitsStar s 3 ⟨sp, 7, false⟩ =
      regex_exec bcDigitsStar s 2 ⟨sp, 9, true⟩ :=
    regex_exec_step _ _ 2 _ _ (by simp [bcDigitsStar]) hsp
      (regexStep_setFlag bcDigitsStar s ⟨sp, 7, false⟩ rfl)
  have e5 : regex_exec bcDigitsStar s 2 ⟨sp, 9, true⟩ =
      regex_exec bcDigitsStar s 1 ⟨sp, 14, true⟩ :=
    regex_exec_step _ _ 1 _ _ (by simp [bcDigitsStar]) hsp
      (regexStep_jumpNeq_fallthrough bcDigitsStar s ⟨sp, 9, true⟩ rfl rfl)
  rw [e1, e2, e3, e4, e5]
  exact regex_exec_accept bcDigitsStar s ⟨sp, 14, true⟩ 0 rfl
    (by simp [bcDigitsStar]) hsp

/-- The "[0-9]*" program halts with `true` from every cursor position, by
induction on the remaining input: each loop iteration whose test succeeds
advances `sp` by one, and a failed test exits through `Accept`. -/
theorem bcDigitsStar_terminates (s : List Nat) :
    ∀ (n sp : Nat) (f : Bool), s.length - sp ≤ n → sp ≤ s.length →
      ∃ fuel, regex_exec bcDigitsStar s fuel ⟨sp, 0, f⟩ = some true := by
  intro n
  induction n with
  | zero =>
    intro sp f h0 hsp
    have hsp' : sp = s.length := by omega
    have hnd : isDigitB (strAt s sp) = false := by
      rw [strAt, hsp', List.getD_eq_default _ _ le_rfl]
      rfl
    exact ⟨6, bcDigitsStar_acceptsNonDigit s sp f hnd hsp⟩
  | succ n ih =>
    intro sp f h0 hsp
    by_cases hd : isDigitB (strAt s sp) = true
    · have hlt : sp < s.length := by
        by_contra hge
        push_neg at hge
        rw [strAt, List.getD_eq_default _ _ hge] at hd
        exact absurd hd (by decide)
      obtain ⟨fuel, hf⟩ := ih (sp + 1) true (by omega) (by omega)
      refine ⟨fuel + 3, ?_⟩
      have e1 : regex_exec bcDigitsStar s (fuel + 3) ⟨sp, 0, f⟩ =
          regex_exec bcDigitsStar s (fuel + 2) ⟨sp, 1, true⟩ :=
        regex_exec_step _ _ (fuel + 2) _ _ (by simp [bcDigitsStar]) hsp
          (by rw [regexStep_testDigit bcDigitsStar s ⟨sp, 0, f⟩ rfl]; rw [hd])
      have e2 : regex_exec bcDigitsStar s (fuel + 2) ⟨sp, 1, true⟩ =
          regex_exec bcDigitsStar s (fuel + 1) ⟨sp + 1, 2, true⟩ :=
        regex_exec_step _ _ (fuel + 1) _ _ (by simp [bcDigitsStar]) hsp
          (regexStep_incPosEq bcDigitsStar s ⟨sp, 1, true⟩ rfl)
      have e3 : regex_exec bcDigitsStar s (fuel + 1) ⟨sp + 1, 2, true⟩ =
          regex_exec bcDigitsStar s fuel ⟨sp + 1, 0, true⟩ :=
        regex_exec_step _ _ fuel _ _ (by simp [bcDigitsStar])
          (by show sp + 1 ≤ s.length; omega)
          (bcDigitsStar_loopback s (sp + 1))
      rw [e1, e2, e3]
      exact hf
    · rw [Bool.not_eq_true] at hd
      exact ⟨6, bcDigitsStar_acceptsNonDigit s sp f hd hsp⟩

/-- C8 (amended): the VM does *not* terminate on every compiled program
(see the counterexample "(a*)*" on the empty input, where the outer
loop-back jump is reached through `SetFlag 1` with the cursor unmoved);
when every quantifier body is a single position-advancing test — as in
"[0-9]*" — execution does terminate on every input, because each taken
loop-back jump follows a test whose success advanced the cursor. -/
theorem C8_amended (s : List Nat) :
    ∃ fuel, (Regex.compile (strBytes "[0-9]*")).matchFuel s fuel = some true := by
  obtain ⟨fuel, hf⟩ :=
    bcDigitsStar_terminates s s.length 0 false (by omega) (by omega)
  refine ⟨fuel, ?_⟩
  rw [show Regex.compile (strBytes "[0-9]*") = ⟨bcDigitsStar⟩ from by decide]
  rw [show Regex.matchFuel ⟨bcDigitsStar⟩ s fuel =
        regex_exec bcDigitsStar s fuel ⟨0, 0, false⟩ from by
      simp [Regex.matchFuel, bcDigitsStar]]
  exact hf

/-- C9: whenever any compilation stage fails, the stored bytecode stays
empty and `match` returns false for every input (total function, no
crash). -/
theorem C9_failed_compile_matches_nothing (p : List Nat) (e : CompileError)
    (h : regex_compile p = .error e) :
    (Regex.compile p).bytecode = [] ∧
    ∀ (s : List Nat) (fuel : Nat),
      (Regex.compile p).matchFuel s fuel = some false := by
  have hbc : (Regex.compile p).bytecode = [] := by
    rw [Regex.compile, h]
  exact ⟨hbc, fun s fuel => by rw [Regex.matchFuel, hbc]; rfl⟩

/-- Witness for C9: the failed compilation of "[a-z" stores no bytecode and
matches nothing. -/
theorem C9_witness :
    (Regex.compile (strBytes "[a-z")).bytecode = [] ∧
    (Regex.compile (strBytes "[a-z")).matchFuel (strBytes "abc") 5 =
      some false :=
  ⟨(C9_failed_compile_matches_nothing (strBytes "[a-z")
      (.lexErr .UnclosedCharacterRange) (by decide)).1,
   (C9_failed_compile_matches_nothing (strBytes "[a-z")
      (.lexErr .UnclosedCharacterRange) (by decide)).2 (strBytes "abc") 5⟩

end CPPRegex
